import Mathlib

/-!
Verification of the packify serialization codec (`src/packify/serialization.py`).

The Python module exposes two functions, `pack` and `unpack`, over the value
universe `SerializableType = Packable | dict | list | set | tuple | int | bool
| float | Decimal | str | bytes | bytearray | NoneType`.  We embed that value
universe as the inductive type `PyObj`, byte strings as `List Nat` (each entry
a byte value), and Python exceptions as an `Except PyErr` result.

Modelling conventions:
* A `bytes`/`bytearray` value is its list of byte values.
* A `str` value is represented by its UTF-8 byte sequence; a `Decimal` by the
  UTF-8 bytes of its canonical `str()` form; a `float` by the natural number
  whose 8-byte big-endian representation is the IEEE-754 bit pattern that
  `struct.pack` with format `d` would emit.
* A `Packable` instance is represented by its class name (UTF-8 bytes of
  `__name__`) together with the byte string its own `pack()` method returns.
* A Python `set` is modelled by the sequence of its elements in iteration
  order; two `PySet` values with permuted element lists model the same
  mathematical set observed under two genuinely possible iteration orders
  (CPython set iteration order depends on insertion history).
* `pyCallable` stands for any object outside the serializable universe
  (functions and other callables), used to exercise the type check at the top
  of `pack`.
* Exceptions are modelled as `Except.error`: `UsageError` raised through
  `tressa` (from the repository's `errors.py`, not present under `src/`;
  modelled from the spec as raise-on-false), `struct.error` raised by
  `struct.pack`/`struct.unpack` on range or buffer-size violations, and the
  `ValueError`/`TypeError`/`IndexError` families.  Message texts are carried
  where a claim depends on them and abridged otherwise.
-/

/-- The kinds of Python exception the codec can raise. -/
inductive PyErr where
  | usageError (msg : String)
  | structError (msg : String)
  | valueError (msg : String)
  | typeError (msg : String)
  | indexError (msg : String)
  | fuelOut
deriving DecidableEq, Repr

/-- The value universe `SerializableType` of `serialization.py`, extended with
`pyCallable` for objects outside it (e.g. functions). -/
inductive PyObj where
  | pyPackable (name : List Nat) (packed : List Nat)
  | pyDict (pairs : List (PyObj × PyObj))
  | pyList (items : List PyObj)
  | pySet (items : List PyObj)
  | pyTuple (items : List PyObj)
  | pyStr (s : List Nat)
  | pyBytes (bs : List Nat)
  | pyBytearray (bs : List Nat)
  | pyInt (n : Int)
  | pyBool (b : Bool)
  | pyFloat (bits : Nat)
  | pyDecimal (s : List Nat)
  | pyNone
  | pyCallable (id : Nat)
deriving Repr

/-- Big-endian byte representation of `n` in exactly `k` bytes (the payload
`struct.pack` emits for an unsigned field of width `k`, assuming `n` is in
range). -/
def beBytes : Nat → Nat → List Nat
  | 0, _ => []
  | k + 1, n => beBytes k (n / 256) ++ [n % 256]

/-- Big-endian interpretation of a byte list (what `struct.unpack` computes
from an unsigned field). -/
def beDecode (bs : List Nat) : Nat :=
  bs.foldl (fun acc b => 256 * acc + b) 0

/-- The hex digit characters `0123456789abcdef` as produced by Python
`bytes.hex()`. -/
def hexDigit (d : Nat) : Nat :=
  if d < 10 then 48 + d else 87 + d

/-- `bytes.hex()` encoded back to UTF-8 bytes: two lowercase hex characters
per input byte. -/
def hexEncode (bs : List Nat) : List Nat :=
  bs.flatMap (fun b => [hexDigit (b / 16), hexDigit (b % 16)])

/-- `tag || 4-byte big-endian length || payload`, i.e.
`struct.pack(f!1sI\x7blen(payload)\x7ds, tag, len(payload), payload)`.
Raises `struct.error` when the length exceeds the unsigned 32-bit field. -/
def frame (tag : Nat) (payload : List Nat) : Except PyErr (List Nat) :=
  if payload.length < 4294967296 then
    .ok (tag :: beBytes 4 payload.length ++ payload)
  else
    .error (.structError "I format requires 0 <= number <= 4294967295")

/-- The `UsageError` message raised by the `tressa` call at the top of `pack`
when the value is not serializable; the Python f-string interpolates
`type(data)`, which for a function prints as class function. -/
def notSerializableMsg : String :=
  "data type must be one of (Packable, list, set, tuple, str, bytes, bytearray, int, bool, float, Decimal, NoneType); class function is not serializable"

/-- Lexicographic comparison of byte strings, the order Python `sorted` uses
on `bytes` values. -/
def lexLe : List Nat → List Nat → Bool
  | [], _ => true
  | _ :: _, [] => false
  | a :: as, b :: bs =>
      if a < b then true
      else if b < a then false
      else lexLe as bs

mutual

/-- Python `==` on serializable values, restricted to structural equality of
the embedding.  (Python's cross-type numeric equalities such as `True == 1`
are not modelled; no claim depends on them.) -/
def pyBeq : PyObj → PyObj → Bool
  | .pyPackable n1 p1, .pyPackable n2 p2 => n1 == n2 && p1 == p2
  | .pyDict ps1, .pyDict ps2 => pyBeqPairs ps1 ps2
  | .pyList l1, .pyList l2 => pyBeqList l1 l2
  | .pySet l1, .pySet l2 => pyBeqList l1 l2
  | .pyTuple l1, .pyTuple l2 => pyBeqList l1 l2
  | .pyStr s1, .pyStr s2 => s1 == s2
  | .pyBytes b1, .pyBytes b2 => b1 == b2
  | .pyBytearray b1, .pyBytearray b2 => b1 == b2
  | .pyInt n1, .pyInt n2 => n1 == n2
  | .pyBool b1, .pyBool b2 => b1 == b2
  | .pyFloat f1, .pyFloat f2 => f1 == f2
  | .pyDecimal d1, .pyDecimal d2 => d1 == d2
  | .pyNone, .pyNone => true
  | .pyCallable i1, .pyCallable i2 => i1 == i2
  | _, _ => false

/-- Elementwise equality of value lists. -/
def pyBeqList : List PyObj → List PyObj → Bool
  | [], [] => true
  | x :: xs, y :: ys => pyBeq x y && pyBeqList xs ys
  | _, _ => false

/-- Elementwise equality of key-value pair lists. -/
def pyBeqPairs : List (PyObj × PyObj) → List (PyObj × PyObj) → Bool
  | [], [] => true
  | (k1, v1) :: xs, (k2, v2) :: ys =>
      pyBeq k1 k2 && pyBeq v1 v2 && pyBeqPairs xs ys
  | _, _ => false

end

/-- Numeric value of one hex character as accepted by `bytes.fromhex`
(digits, lowercase and uppercase letters); anything else raises
`ValueError`.  (The whitespace-skipping of `fromhex` is not modelled; the
codec only ever feeds it contiguous hex.) -/
def hexDigitVal (c : Nat) : Except PyErr Nat :=
  if 48 ≤ c ∧ c ≤ 57 then .ok (c - 48)
  else if 97 ≤ c ∧ c ≤ 102 then .ok (c - 87)
  else if 65 ≤ c ∧ c ≤ 70 then .ok (c - 55)
  else .error (.valueError "non-hexadecimal number found in fromhex")

/-- `bytes.fromhex`: parses pairs of hex characters into bytes, raising
`ValueError` on a stray character or odd length. -/
def hexDecode : List Nat → Except PyErr (List Nat)
  | [] => .ok []
  | [_] => .error (.valueError "non-hexadecimal number found in fromhex")
  | c1 :: c2 :: rest =>
      match hexDigitVal c1 with
      | .error e => .error e
      | .ok d1 =>
        match hexDigitVal c2 with
        | .error e => .error e
        | .ok d2 =>
          match hexDecode rest with
          | .error e => .error e
          | .ok ds => .ok ((16 * d1 + d2) :: ds)

/-- `bytes.partition(sep)` for a one-byte separator: splits at the first
occurrence, returning the part before, whether the separator was found, and
the part after (both empty remainder parts when it is absent, as in Python
where `partition` then returns `(whole, b.., b..)`). -/
def partitionB (sep : Nat) : List Nat → List Nat × Bool × List Nat
  | [] => ([], false, [])
  | c :: rest =>
      if c = sep then ([], true, rest)
      else
        let (pre, found, post) := partitionB sep rest
        (c :: pre, found, post)

/-- `str(bs, utf-8)` as used in error messages; the codec only ever shows
ASCII class names, rendered here character by character. -/
def nameStr (bs : List Nat) : String :=
  String.mk (bs.map Char.ofNat)

/-- A registry entry: whether the looked-up object passes the
`hasattr(.., unpack)` test, and the effect of calling its `unpack`
class method on the packed payload (the `inject` argument the Python code
forwards is part of the handler's closure here). -/
structure Handler where
  hasUnpack : Bool
  run : List Nat → Except PyErr PyObj

/-- A mapping from extension type names (UTF-8 bytes of the class name) to
handlers; earlier entries shadow later ones, as for Python dict merge
results. -/
abbrev Registry := List (List Nat × Handler)

/-- Dictionary lookup by class name. -/
def lookupReg (r : Registry) (name : List Nat) : Option Handler :=
  match r.find? (fun p => p.1 == name) with
  | some p => some p.2
  | none => none

/-- `globals()` of `serialization.py` viewed as a registry: the module's
global names (`pack`, `unpack`, `Packable`, `Decimal`, `struct`, `tressa`,
`NoneType`, ...) include no registered extension handler, so the model takes
the built-in side of the registry to be empty. -/
def globalsReg : Registry := []

/-- `dependencies = \x7b**globals(), **inject\x7d`: the merged registry in
which `inject` entries take precedence over module globals. -/
def mergeReg (g inject : Registry) : Registry := inject ++ g

/-- Python `set(items)`: deduplicates by `==`.  The model keeps the first
occurrence of each element in order; the true CPython iteration order of the
materialized set is hash-table dependent, which no claim depends on. -/
def setMaterialize (items : List PyObj) : List PyObj :=
  items.foldl (fun acc x => if acc.any (fun y => pyBeq y x) then acc else acc ++ [x]) []

/-- One step of dict construction `d[k] = v`: if a key equal (by `==`) to
`k` is present, its value is replaced in place (the stored key object and its
position are kept); otherwise the pair is appended. -/
def dictInsert (ps : List (PyObj × PyObj)) (k v : PyObj) : List (PyObj × PyObj) :=
  if ps.any (fun kv => pyBeq kv.1 k) then
    ps.map (fun kv => if pyBeq kv.1 k then (kv.1, v) else kv)
  else
    ps ++ [(k, v)]

/-- Subscription `pair[i]` on a decoded item, as used by the dict
comprehension in `unpack`: defined for tuples and lists (and byte strings,
whose elements read back as integers); for non-subscriptable values Python
raises `TypeError`.  (Code-point indexing of `str` is not modelled; no claim
reaches it.) -/
def pyIndex : PyObj → Nat → Except PyErr PyObj
  | .pyTuple l, i =>
      if h : i < l.length then .ok (l.get ⟨i, h⟩)
      else .error (.indexError "tuple index out of range")
  | .pyList l, i =>
      if h : i < l.length then .ok (l.get ⟨i, h⟩)
      else .error (.indexError "list index out of range")
  | .pyBytes bs, i =>
      if h : i < bs.length then .ok (.pyInt (bs.get ⟨i, h⟩))
      else .error (.indexError "index out of range")
  | .pyBytearray bs, i =>
      if h : i < bs.length then .ok (.pyInt (bs.get ⟨i, h⟩))
      else .error (.indexError "bytearray index out of range")
  | _, _ => .error (.typeError "object is not subscriptable")

/-- Worker for `toDict`: one `d[pair[0]] = pair[1]` step per item, carrying
the dict built so far. -/
def toDictAux (acc : List (PyObj × PyObj)) :
    List PyObj → Except PyErr (List (PyObj × PyObj))
  | [] => .ok acc
  | it :: rest =>
      match pyIndex it 0 with
      | .error e => .error e
      | .ok k =>
        match pyIndex it 1 with
        | .error e => .error e
        | .ok v => toDictAux (dictInsert acc k v) rest

/-- The dict comprehension `\x7bpair[0]: pair[1] for pair in items\x7d`:
folds `d[pair[0]] = pair[1]` over the decoded items in order. -/
def toDict (items : List PyObj) : Except PyErr (List (PyObj × PyObj)) :=
  toDictAux [] items

/-- Python `sorted` on a list of byte strings: sorts ascending with respect
to the lexicographic byte order.  (`sorted` is a stable comparison sort, and
`lexLe` is total, transitive and antisymmetric, so every correct sorting
algorithm returns the same list; the model uses insertion sort.) -/
def sortedBytes (l : List (List Nat)) : List (List Nat) :=
  List.insertionSort (fun a b => lexLe a b = true) l

mutual

/-- `pack` from `serialization.py`: serializes a value into one
tag/length/payload frame, recursing into containers.  The `tressa` guard
(modelled from the spec: `tressa cond msg` raises `UsageError msg` when the
condition fails; `errors.py` is not under `src/`) rejects exactly the
`pyCallable` values, every other constructor being an instance of the union
type it checks. -/
def pack : PyObj → Except PyErr (List Nat)
  | .pyCallable _ => .error (.usageError notSerializableMsg)
  | .pyPackable name packed =>
      frame 112 (hexEncode name ++ 95 :: packed)
  | .pyList items =>
      match packAll items with
      | .error e => .error e
      | .ok fs => frame 108 fs.flatten
  | .pySet items =>
      match packAll items with
      | .error e => .error e
      | .ok fs => frame 101 fs.flatten
  | .pyTuple items =>
      match packAll items with
      | .error e => .error e
      | .ok fs => frame 116 fs.flatten
  | .pyBytes bs => frame 98 bs
  | .pyBytearray bs => frame 97 bs
  | .pyStr s => frame 115 s
  | .pyInt n =>
      -- struct.pack with format !1sII: the value field is unsigned 32-bit,
      -- so struct.error is raised outside [0, 2^32)
      if 0 ≤ n ∧ n < 4294967296 then
        .ok (105 :: beBytes 4 4 ++ beBytes 4 n.toNat)
      else
        .error (.structError "argument out of range for I format")
  | .pyBool b => .ok (66 :: beBytes 4 1 ++ [if b then 1 else 0])
  | .pyFloat bits => .ok (102 :: beBytes 4 8 ++ beBytes 8 bits)
  | .pyDecimal s => frame 68 s
  | .pyDict pairs =>
      match packPairs pairs with
      | .error e => .error e
      | .ok fs => frame 100 (sortedBytes fs).flatten
  | .pyNone => .ok [110, 0, 0, 0, 0]

/-- The list comprehension `[pack(item) for item in data]` used for list, set
and tuple payloads: packs each element in iteration order, propagating the
first exception. -/
def packAll : List PyObj → Except PyErr (List (List Nat))
  | [] => .ok []
  | x :: xs =>
      match pack x with
      | .error e => .error e
      | .ok f =>
        match packAll xs with
        | .error e => .error e
        | .ok fs => .ok (f :: fs)

/-- The comprehension `[pack((key, value)) for key, value in data.items()]`
used for dict payloads: each pair is packed as a two-element tuple frame
(tag `t`, payload the key frame followed by the value frame); see
`packPairs_eq_tuplePack` below for the equation with `pack` on the
corresponding `pyTuple`. -/
def packPairs : List (PyObj × PyObj) → Except PyErr (List (List Nat))
  | [] => .ok []
  | (k, v) :: rest =>
      match pack k with
      | .error e => .error e
      | .ok fk =>
        match pack v with
        | .error e => .error e
        | .ok fv =>
          match frame 116 (fk ++ fv) with
          | .error e => .error e
          | .ok fkv =>
            match packPairs rest with
            | .error e => .error e
            | .ok fs => .ok (fkv :: fs)

end

mutual

/-- `unpack` from `serialization.py`, with an explicit recursion budget
(`fuel`); the top-level wrapper `unpackBytes` supplies a budget large enough
that `fuelOut` is never reached on the inputs considered, since every
recursive call is on a strictly shorter buffer.  Each `struct.unpack` call of
the source is modelled by the corresponding length guard, raising
`struct.error` when the buffer does not fit the format. -/
def unpackF : Nat → List Nat → Registry → Except PyErr PyObj
  | 0, _, _ => .error .fuelOut
  | _ + 1, [], _ => .error (.structError "unpack requires a buffer of at least 1 bytes")
  | fuel + 1, code :: data, deps =>
    if code = 112 then
      -- b'p': Packable extension frame
      if 4 ≤ data.length then
        let packed_len := beDecode (data.take 4)
        let rest := data.drop 4
        if packed_len ≤ rest.length then
          let packed := rest.take packed_len
          let (packed_class_hex, _, packed_data) := partitionB 95 packed
          match hexDecode packed_class_hex with
          | .error e => .error e
          | .ok packed_class =>
            match lookupReg deps packed_class with
            | none =>
                .error (.usageError
                  (nameStr packed_class ++ " not found in globals or inject; cannot unpack"))
            | some handler =>
                if handler.hasUnpack then handler.run packed_data
                else .error (.usageError (nameStr packed_class ++ " must have unpack method"))
        else .error (.structError "unpack requires a buffer")
      else .error (.structError "unpack requires a buffer of at least 4 bytes")
    else if code = 108 ∨ code = 101 ∨ code = 116 ∨ code = 100 then
      -- b'l', b'e', b't', b'd': container frames
      if 4 ≤ data.length then
        let let_len := beDecode (data.take 4)
        let rest := data.drop 4
        if let_len ≤ rest.length then
          let let_data := rest.take let_len
          match parseItemsF fuel let_data deps with
          | .error e => .error e
          | .ok items =>
            if code = 108 then .ok (.pyList items)
            else if code = 101 then .ok (.pySet (setMaterialize items))
            else if code = 116 then .ok (.pyTuple items)
            else
              match toDict items with
              | .error e => .error e
              | .ok pairs => .ok (.pyDict pairs)
        else .error (.structError "unpack requires a buffer")
      else .error (.structError "unpack requires a buffer of at least 4 bytes")
    else if code = 98 ∨ code = 97 then
      -- b'b', b'a': bytes / bytearray; only the declared length is read,
      -- trailing bytes are ignored
      if 4 ≤ data.length then
        let bt_len := beDecode (data.take 4)
        let rest := data.drop 4
        if bt_len ≤ rest.length then
          let bt_data := rest.take bt_len
          if code = 98 then .ok (.pyBytes bt_data) else .ok (.pyBytearray bt_data)
        else .error (.structError "unpack requires a buffer")
      else .error (.structError "unpack requires a buffer of at least 4 bytes")
    else if code = 115 then
      -- b's': str (the UTF-8 validity of the payload is not modelled)
      if 4 ≤ data.length then
        let s_len := beDecode (data.take 4)
        let rest := data.drop 4
        if s_len ≤ rest.length then .ok (.pyStr (rest.take s_len))
        else .error (.structError "unpack requires a buffer")
      else .error (.structError "unpack requires a buffer of at least 4 bytes")
    else if code = 105 then
      -- b'i': struct.unpack with format !II reads the length word and the
      -- unsigned 32-bit value, ignoring the length word's value
      if 8 ≤ data.length then .ok (.pyInt (beDecode ((data.drop 4).take 4)))
      else .error (.structError "unpack requires a buffer of at least 8 bytes")
    else if code = 66 then
      -- b'B': format !I? requires a buffer of exactly 5 bytes
      match data with
      | [_, _, _, _, b] => .ok (.pyBool (b ≠ 0))
      | _ => .error (.structError "unpack requires a buffer of 5 bytes")
    else if code = 102 then
      -- b'f': format !Id followed by the remaining bytes
      if 12 ≤ data.length then .ok (.pyFloat (beDecode ((data.drop 4).take 8)))
      else .error (.structError "unpack requires a buffer of at least 12 bytes")
    else if code = 68 then
      -- b'D': Decimal from the UTF-8 payload (string parsing not modelled)
      if 4 ≤ data.length then
        let s_len := beDecode (data.take 4)
        let rest := data.drop 4
        if s_len ≤ rest.length then .ok (.pyDecimal (rest.take s_len))
        else .error (.structError "unpack requires a buffer")
      else .error (.structError "unpack requires a buffer of at least 4 bytes")
    else if code = 110 then
      -- b'n': None
      .ok .pyNone
    else
      -- no branch matches: the Python function falls through and
      -- implicitly returns None
      .ok .pyNone

/-- The `while len(let_data) > 0` loop of the container branch: reads the
next frame's declared length, splits off `5 + item_len` bytes, unpacks them
recursively and continues on the remainder. -/
def parseItemsF : Nat → List Nat → Registry → Except PyErr (List PyObj)
  | 0, _, _ => .error .fuelOut
  | _ + 1, [], _ => .ok []
  | fuel + 1, let_data, deps =>
    if 5 ≤ let_data.length then
      let item_len := beDecode ((let_data.drop 1).take 4)
      if 5 + item_len ≤ let_data.length then
        let item := let_data.take (5 + item_len)
        let rest := let_data.drop (5 + item_len)
        match unpackF fuel item deps with
        | .error e => .error e
        | .ok v =>
          match parseItemsF fuel rest deps with
          | .error e => .error e
          | .ok vs => .ok (v :: vs)
      else .error (.structError "unpack requires a buffer")
    else .error (.structError "unpack requires a buffer of at least 5 bytes")

end

/-- `unpack(data, inject)` from `serialization.py`: merges the module globals
with `inject` (the latter taking precedence) and decodes one frame.  The
recursion budget `data.length + 1` suffices because every nested frame is a
strict sub-buffer. -/
def unpackBytes (data : List Nat) (inject : Registry) : Except PyErr PyObj :=
  unpackF (data.length + 1) data (mergeReg globalsReg inject)

/-! ## Basic properties of the byte-level helpers -/

@[simp]
theorem beBytes_length (k n : Nat) : (beBytes k n).length = k := by
  induction k generalizing n with
  | zero => rfl
  | succ k ih => simp [beBytes, ih]

theorem beBytes_four (n : Nat) :
    beBytes 4 n = [n / 16777216 % 256, n / 65536 % 256, n / 256 % 256, n % 256] := by
  simp [beBytes, Nat.div_div_eq_div_mul]

theorem beDecode_beBytes (n : Nat) (h : n < 4294967296) :
    beDecode (beBytes 4 n) = n := by
  rw [beBytes_four]
  simp only [beDecode, List.foldl]
  omega

theorem frame_eq_ok {tag : Nat} {payload bs : List Nat}
    (h : frame tag payload = .ok bs) :
    bs = tag :: beBytes 4 payload.length ++ payload ∧ payload.length < 4294967296 := by
  unfold frame at h
  split at h
  · exact ⟨by cases h; rfl, by assumption⟩
  · cases h

theorem frame_ok {tag : Nat} {payload : List Nat} (h : payload.length < 4294967296) :
    frame tag payload = .ok (tag :: beBytes 4 payload.length ++ payload) := by
  unfold frame
  simp [h]

/-! ## C8: every successful `pack` output is one tag/length/payload frame -/

/-- C8: for every encodable value `v`, `pack v` has exactly the shape
`tag || 4-byte big-endian length || payload` with the declared length equal
to the payload length (hence the total length is `5 + payload length`). -/
theorem pack_frame_shape (v : PyObj) (bs : List Nat) (h : pack v = .ok bs) :
    ∃ tag payload, bs = tag :: beBytes 4 payload.length ++ payload ∧
      payload.length < 4294967296 ∧ bs.length = 5 + payload.length := by
  have shape : ∀ tag payload, bs = tag :: beBytes 4 payload.length ++ payload →
      payload.length < 4294967296 →
      ∃ tag payload, bs = tag :: beBytes 4 payload.length ++ payload ∧
        payload.length < 4294967296 ∧ bs.length = 5 + payload.length := by
    intro tag payload hbs hlt
    exact ⟨tag, payload, hbs, hlt, by simp [hbs, beBytes_length]; omega⟩
  cases v with
  | pyCallable i => simp [pack] at h
  | pyPackable name packed =>
      simp only [pack] at h
      obtain ⟨hbs, hlt⟩ := frame_eq_ok h
      exact shape _ _ hbs hlt
  | pyList items =>
      simp only [pack] at h
      cases hpa : packAll items with
      | error e => rw [hpa] at h; cases h
      | ok fs =>
          rw [hpa] at h
          obtain ⟨hbs, hlt⟩ := frame_eq_ok h
          exact shape _ _ hbs hlt
  | pySet items =>
      simp only [pack] at h
      cases hpa : packAll items with
      | error e => rw [hpa] at h; cases h
      | ok fs =>
          rw [hpa] at h
          obtain ⟨hbs, hlt⟩ := frame_eq_ok h
          exact shape _ _ hbs hlt
  | pyTuple items =>
      simp only [pack] at h
      cases hpa : packAll items with
      | error e => rw [hpa] at h; cases h
      | ok fs =>
          rw [hpa] at h
          obtain ⟨hbs, hlt⟩ := frame_eq_ok h
          exact shape _ _ hbs hlt
  | pyDict pairs =>
      simp only [pack] at h
      cases hpp : packPairs pairs with
      | error e => rw [hpp] at h; cases h
      | ok fs =>
          rw [hpp] at h
          obtain ⟨hbs, hlt⟩ := frame_eq_ok h
          exact shape _ _ hbs hlt
  | pyStr s =>
      simp only [pack] at h
      obtain ⟨hbs, hlt⟩ := frame_eq_ok h
      exact shape _ _ hbs hlt
  | pyBytes bs' =>
      simp only [pack] at h
      obtain ⟨hbs, hlt⟩ := frame_eq_ok h
      exact shape _ _ hbs hlt
  | pyBytearray bs' =>
      simp only [pack] at h
      obtain ⟨hbs, hlt⟩ := frame_eq_ok h
      exact shape _ _ hbs hlt
  | pyInt n =>
      simp only [pack] at h
      split at h
      · cases h
        refine shape 105 (beBytes 4 n.toNat) ?_ (by simp [beBytes_length])
        simp [beBytes_length]
      · cases h
  | pyBool b =>
      simp only [pack] at h
      cases h
      exact shape 66 [if b then 1 else 0] (by simp) (by simp)
  | pyFloat bits =>
      simp only [pack] at h
      cases h
      exact shape 102 (beBytes 8 bits) (by simp [beBytes_length]) (by simp [beBytes_length])
  | pyDecimal s =>
      simp only [pack] at h
      obtain ⟨hbs, hlt⟩ := frame_eq_ok h
      exact shape _ _ hbs hlt
  | pyNone =>
      simp only [pack] at h
      cases h
      exact shape 110 [] (by decide) (by decide)

/-- Witness for `pack_frame_shape` at the concrete value `None`. -/
theorem pack_frame_shape_witness :
    pack .pyNone = .ok [110, 0, 0, 0, 0] ∧
    ∃ tag payload,
      ([110, 0, 0, 0, 0] : List Nat) = tag :: beBytes 4 payload.length ++ payload ∧
      payload.length < 4294967296 ∧
      ([110, 0, 0, 0, 0] : List Nat).length = 5 + payload.length :=
  ⟨rfl, pack_frame_shape .pyNone [110, 0, 0, 0, 0] rfl⟩

/-! ## C1 / C5: the integer encoding uses an unsigned 32-bit struct field -/

/-- C1 (code bug evidence): the round-trip property fails on the data model
because `pack` raises `struct.error` for a negative integer (the test-suite
fixtures draw integers from `[-1000000, 1000000]`), both bare and nested in
a container, so `unpack(pack(v))` never gets to run on such values. -/
theorem roundtrip_fails_on_negative_int :
    pack (.pyInt (-1000000)) = .error (.structError "argument out of range for I format") ∧
    pack (.pyList [.pyInt (-1000000)]) =
      .error (.structError "argument out of range for I format") :=
  ⟨rfl, rfl⟩

/-- C5 (code bug evidence): `pack` of an integer raises `struct.error` for a
negative value and for `2^32`, while an in-range value round-trips through
the `i` frame. -/
theorem pack_int_32bit_behavior :
    pack (.pyInt (-1)) = .error (.structError "argument out of range for I format") ∧
    pack (.pyInt 4294967296) = .error (.structError "argument out of range for I format") ∧
    pack (.pyInt 7) = .ok [105, 0, 0, 0, 4, 0, 0, 0, 7] ∧
    unpackBytes [105, 0, 0, 0, 4, 0, 0, 0, 7] [] = .ok (.pyInt 7) :=
  ⟨rfl, rfl, rfl, rfl⟩

/-! ## C6: non-serializable values are rejected with a usage error -/

/-- C6: `pack` of any value outside the serializable union (modelled by
`pyCallable`, e.g. a function) raises `UsageError` before producing any
output, with a message naming the offending kind. -/
theorem pack_callable_usage_error (i : Nat) :
    pack (.pyCallable i) = .error (.usageError notSerializableMsg) ∧
    ∃ pre post, notSerializableMsg = pre ++ "function" ++ post :=
  ⟨rfl,
   "data type must be one of (Packable, list, set, tuple, str, bytes, bytearray, int, bool, float, Decimal, NoneType); class ",
   " is not serializable", rfl⟩

/-! ## C2: set payloads are concatenated in iteration order, not sorted -/

/-- C2 (counterexample): the two iteration orders of the set with elements
`1` and `9` (really observable in CPython: `set([1, 9])` iterates `1, 9` and
`set([9, 1])` iterates `9, 1`) are permutations of one another, i.e. equal as
sets, yet `pack` produces different bytes, because the set branch joins the
element frames without sorting them. -/
theorem set_encoding_not_canonical_cex :
    [PyObj.pyInt 1, PyObj.pyInt 9].Perm [PyObj.pyInt 9, PyObj.pyInt 1] ∧
    pack (.pySet [.pyInt 1, .pyInt 9]) ≠ pack (.pySet [.pyInt 9, .pyInt 1]) := by
  refine ⟨List.Perm.swap (PyObj.pyInt 9) (PyObj.pyInt 1) [], ?_⟩
  intro h
  rw [show pack (.pySet [.pyInt 1, .pyInt 9]) =
        .ok [101, 0, 0, 0, 18, 105, 0, 0, 0, 4, 0, 0, 0, 1, 105, 0, 0, 0, 4, 0, 0, 0, 9]
      from rfl,
      show pack (.pySet [.pyInt 9, .pyInt 1]) =
        .ok [101, 0, 0, 0, 18, 105, 0, 0, 0, 4, 0, 0, 0, 9, 105, 0, 0, 0, 4, 0, 0, 0, 1]
      from rfl] at h
  exact absurd (Except.ok.inj h) (by decide)

/-- C2 (amended): the set branch of `pack` concatenates the element frames
in the iteration order of the set, without sorting: for a two-element set
the output frame is tag `e` followed by the two element frames in order. -/
theorem pack_set_concat_in_order (a b : PyObj) (fa fb : List Nat)
    (ha : pack a = .ok fa) (hb : pack b = .ok fb)
    (hlen : fa.length + fb.length < 4294967296) :
    pack (.pySet [a, b]) = .ok (101 :: beBytes 4 (fa.length + fb.length) ++ (fa ++ fb)) := by
  have hall : packAll [a, b] = .ok [fa, fb] := by
    simp [packAll, ha, hb]
  simp only [pack, hall]
  rw [show ([fa, fb] : List (List Nat)).flatten = fa ++ fb by simp]
  rw [frame_ok (by simpa using hlen)]
  simp

/-- Witness for `pack_set_concat_in_order` at two `None` elements. -/
theorem pack_set_concat_in_order_witness :
    pack (.pySet [.pyNone, .pyNone]) =
      .ok (101 :: beBytes 4 (([110, 0, 0, 0, 0] : List Nat).length +
            ([110, 0, 0, 0, 0] : List Nat).length) ++
          ([110, 0, 0, 0, 0] ++ [110, 0, 0, 0, 0])) :=
  pack_set_concat_in_order .pyNone .pyNone _ _ rfl rfl (by norm_num)

/-! ## C4: an unrecognized tag byte is not an error -/

/-- C4 (counterexample): `unpack` of a frame whose tag byte `z` matches no
known kind returns the value `None` instead of raising a decode error. -/
theorem unpack_unknown_tag_cex : unpackBytes [122, 0, 0, 0, 0] [] = .ok .pyNone :=
  rfl

/-- C4 (amended): for every input whose leading tag byte matches none of the
known kinds, `unpack` falls through every branch and implicitly returns
`None`, whatever the rest of the buffer holds; no error is raised. -/
theorem unpack_unknown_tag_returns_none (b : Nat) (rest : List Nat) (inject : Registry)
    (h : b ∉ [112, 108, 101, 116, 100, 98, 97, 115, 105, 66, 102, 68, 110]) :
    unpackBytes (b :: rest) inject = .ok .pyNone := by
  simp only [List.mem_cons, List.not_mem_nil, or_false, not_or] at h
  obtain ⟨h1, h2, h3, h4, h5, h6, h7, h8, h9, h10, h11, h12, h13⟩ := h
  show unpackF ((b :: rest).length + 1) (b :: rest) (mergeReg globalsReg inject) = .ok .pyNone
  simp only [List.length_cons]
  simp [unpackF, h1, h2, h3, h4, h5, h6, h7, h8, h9, h10, h11, h12, h13]

/-- Witness for `unpack_unknown_tag_returns_none` at tag byte `Z`. -/
theorem unpack_unknown_tag_returns_none_witness :
    unpackBytes [90, 1, 2, 3] [] = .ok .pyNone :=
  unpack_unknown_tag_returns_none 90 [1, 2, 3] [] (by decide)

/-! ## C10: the bytes decoder reads only the declared length -/

/-- C10: decoding `pack(v) ++ s` for a bytes value `v` and a non-empty
suffix `s` succeeds and returns `v`: the `b` branch of `unpack` reads the
4-byte declared length and then exactly that many payload bytes, silently
ignoring everything after them. -/
theorem unpack_bytes_ignores_trailing (bs s : List Nat) (inject : Registry) (f : List Nat)
    (hp : pack (.pyBytes bs) = .ok f) ( _hs : s ≠ []) :
    unpackBytes (f ++ s) inject = .ok (.pyBytes bs) := by
  have hp' : frame 98 bs = .ok f := by simpa [pack] using hp
  obtain ⟨hf, hlen⟩ := frame_eq_ok hp'
  subst hf
  show unpackF _ _ _ = _
  rw [show (98 :: beBytes 4 bs.length ++ bs) ++ s
        = 98 :: (beBytes 4 bs.length ++ (bs ++ s)) by simp]
  simp only [List.length_cons]
  rw [show (beBytes 4 bs.length ++ (bs ++ s)).length + 1 + 1
        = ((beBytes 4 bs.length ++ (bs ++ s)).length + 1) + 1 by rfl]
  simp only [unpackF]
  rw [if_neg (by decide), if_neg (by decide), if_pos (by decide)]
  rw [if_pos (by simp [beBytes_length])]
  rw [List.take_left' (beBytes_length 4 bs.length),
      List.drop_left' (beBytes_length 4 bs.length),
      beDecode_beBytes bs.length hlen]
  rw [if_pos (by simp)]
  rw [List.take_left bs s]
  simp

/-- Witness for `unpack_bytes_ignores_trailing` at `bytes([7])` with one
trailing byte. -/
theorem unpack_bytes_ignores_trailing_witness :
    unpackBytes ([98, 0, 0, 0, 1, 7] ++ [0]) [] = .ok (.pyBytes [7]) :=
  unpack_bytes_ignores_trailing [7] [0] [] [98, 0, 0, 0, 1, 7] rfl (by decide)

/-! ## C3: mapping encoding is canonical (pair frames sorted before joining) -/

theorem lexLe_total : ∀ a b : List Nat, lexLe a b = true ∨ lexLe b a = true := by
  intro a
  induction a with
  | nil => intro b; left; rfl
  | cons x xs ih =>
      intro b
      cases b with
      | nil => right; rfl
      | cons y ys =>
          simp only [lexLe]
          rcases Nat.lt_trichotomy x y with h | h | h
          · left; simp [h]
          · subst h
            rcases ih ys with h' | h'
            · left; simp [h']
            · right; simp [h']
          · right; simp [h, Nat.not_lt.mpr (Nat.le_of_lt h)]

theorem lexLe_trans :
    ∀ a b c : List Nat, lexLe a b = true → lexLe b c = true → lexLe a c = true := by
  intro a
  induction a with
  | nil => intro b c _ _; rfl
  | cons x xs ih =>
      intro b c hab hbc
      cases b with
      | nil => simp [lexLe] at hab
      | cons y ys =>
          cases c with
          | nil => simp [lexLe] at hbc
          | cons z zs =>
              simp only [lexLe] at hab hbc ⊢
              split_ifs at hab hbc ⊢ with h1 h2 h3 h4 h5 h6 <;>
                first
                | rfl
                | omega
                | (exact ih ys zs hab hbc)

theorem lexLe_antisymm :
    ∀ a b : List Nat, lexLe a b = true → lexLe b a = true → a = b := by
  intro a
  induction a with
  | nil =>
      intro b _ hba
      cases b with
      | nil => rfl
      | cons y ys => simp [lexLe] at hba
  | cons x xs ih =>
      intro b hab hba
      cases b with
      | nil => simp [lexLe] at hab
      | cons y ys =>
          simp only [lexLe] at hab hba
          rcases Nat.lt_trichotomy x y with h | h | h
          · simp [show ¬ y < x by omega, h] at hba
          · subst h
            simp only [Nat.lt_irrefl, if_false] at hab hba
            rw [ih ys hab hba]
          · simp [show ¬ x < y by omega, h] at hab

instance : IsTrans (List Nat) (fun a b => lexLe a b = true) := ⟨lexLe_trans⟩

instance : IsTotal (List Nat) (fun a b => lexLe a b = true) := ⟨lexLe_total⟩

instance : IsAntisymm (List Nat) (fun a b => lexLe a b = true) := ⟨lexLe_antisymm⟩

/-- Sorting with respect to the total antisymmetric byte order is invariant
under permutation of the input: the sorted output of two permuted lists is
the same list. -/
theorem sortedBytes_congr {l1 l2 : List (List Nat)} (h : l1.Perm l2) :
    sortedBytes l1 = sortedBytes l2 :=
  List.eq_of_perm_of_sorted
    ((List.perm_insertionSort _ l1).trans (h.trans (List.perm_insertionSort _ l2).symm))
    (List.sorted_insertionSort _ l1)
    (List.sorted_insertionSort _ l2)

/-- Packing a permuted pair list yields a permuted frame list (and succeeds
exactly when the original succeeds). -/
theorem packPairs_perm :
    ∀ {p1 p2 : List (PyObj × PyObj)}, p1.Perm p2 →
      ∀ {fs1 : List (List Nat)}, packPairs p1 = .ok fs1 →
        ∃ fs2, packPairs p2 = .ok fs2 ∧ fs1.Perm fs2 := by
  intro p1 p2 hperm
  induction hperm with
  | nil => exact fun h => ⟨_, h, .refl _⟩
  | cons kv _tail ih =>
      rename_i l₁ l₂
      obtain ⟨k, v⟩ := kv
      intro fs1 h
      simp only [packPairs] at h ⊢
      cases hk : pack k with
      | error e => simp [hk] at h
      | ok fk =>
          simp only [hk] at h ⊢
          cases hv : pack v with
          | error e => simp [hv] at h
          | ok fv =>
              simp only [hv] at h ⊢
              cases hfr : frame 116 (fk ++ fv) with
              | error e => simp [hfr] at h
              | ok fkv =>
                  simp only [hfr] at h ⊢
                  cases hrest : packPairs l₁ with
                  | error e => simp [hrest] at h
                  | ok fs =>
                      simp only [hrest] at h
                      cases h
                      obtain ⟨fs2, hps2, hp⟩ := ih hrest
                      simp only [hps2]
                      exact ⟨fkv :: fs2, rfl, hp.cons fkv⟩
  | swap kv1 kv2 tail =>
      obtain ⟨k1, v1⟩ := kv1
      obtain ⟨k2, v2⟩ := kv2
      intro fs1 h
      simp only [packPairs] at h ⊢
      cases hk2 : pack k2 with
      | error e => simp [hk2] at h
      | ok fk2 =>
          simp only [hk2] at h ⊢
          cases hv2 : pack v2 with
          | error e => simp [hv2] at h
          | ok fv2 =>
              simp only [hv2] at h ⊢
              cases hfr2 : frame 116 (fk2 ++ fv2) with
              | error e => simp [hfr2] at h
              | ok fkv2 =>
                  simp only [hfr2] at h ⊢
                  cases hk1 : pack k1 with
                  | error e => simp [hk1] at h
                  | ok fk1 =>
                      simp only [hk1] at h ⊢
                      cases hv1 : pack v1 with
                      | error e => simp [hv1] at h
                      | ok fv1 =>
                          simp only [hv1] at h ⊢
                          cases hfr1 : frame 116 (fk1 ++ fv1) with
                          | error e => simp [hfr1] at h
                          | ok fkv1 =>
                              simp only [hfr1] at h ⊢
                              cases hrest : packPairs tail with
                              | error e => simp [hrest] at h
                              | ok fs =>
                                  simp only [hrest] at h ⊢
                                  cases h
                                  exact ⟨fkv1 :: fkv2 :: fs, rfl,
                                    List.Perm.swap fkv1 fkv2 fs⟩
  | trans _h12 _h23 ih12 ih23 =>
      intro fs1 h
      obtain ⟨fs2, h2, p12⟩ := ih12 h
      obtain ⟨fs3, h3, p23⟩ := ih23 h2
      exact ⟨fs3, h3, p12.trans p23⟩

/-- C3: the mapping encoding is canonical: `pack` encodes each (key, value)
pair as a two-element tuple frame, sorts the pair frames lexicographically
and concatenates, so mappings holding the same pairs in any insertion order
encode to byte-identical output. -/
theorem pack_dict_perm_invariant (p1 p2 : List (PyObj × PyObj)) (bs : List Nat)
    (hperm : p1.Perm p2) (h : pack (.pyDict p1) = .ok bs) :
    pack (.pyDict p2) = .ok bs := by
  simp only [pack] at h ⊢
  cases hpp : packPairs p1 with
  | error e => simp [hpp] at h
  | ok fs1 =>
      simp only [hpp] at h
      obtain ⟨fs2, hpp2, hfsperm⟩ := packPairs_perm hperm hpp
      simp only [hpp2]
      rwa [← sortedBytes_congr hfsperm]

/-- Witness for `pack_dict_perm_invariant`: the mappings
`\x7b1: 2, 3: 4\x7d` and `\x7b3: 4, 1: 2\x7d` encode to the same bytes. -/
theorem pack_dict_perm_invariant_witness :
    pack (.pyDict [(.pyInt 3, .pyInt 4), (.pyInt 1, .pyInt 2)]) =
      .ok [100, 0, 0, 0, 46,
           116, 0, 0, 0, 18, 105, 0, 0, 0, 4, 0, 0, 0, 1, 105, 0, 0, 0, 4, 0, 0, 0, 2,
           116, 0, 0, 0, 18, 105, 0, 0, 0, 4, 0, 0, 0, 3, 105, 0, 0, 0, 4, 0, 0, 0, 4] :=
  pack_dict_perm_invariant
    [(.pyInt 1, .pyInt 2), (.pyInt 3, .pyInt 4)]
    [(.pyInt 3, .pyInt 4), (.pyInt 1, .pyInt 2)]
    _
    (List.Perm.swap (PyObj.pyInt 3, PyObj.pyInt 4) (PyObj.pyInt 1, PyObj.pyInt 2) [])
    rfl

/-! ## C7: the extension registry bridge -/

theorem hexDigit_ne_95 (d : Nat) : hexDigit d ≠ 95 := by
  unfold hexDigit
  split <;> omega

theorem hexEncode_ne_95 (bs : List Nat) : ∀ c ∈ hexEncode bs, c ≠ 95 := by
  intro c hc
  simp only [hexEncode, List.mem_flatMap, List.mem_cons, List.not_mem_nil, or_false] at hc
  obtain ⟨b, _, hc | hc⟩ := hc <;> exact hc ▸ hexDigit_ne_95 _

theorem partitionB_append (sep : Nat) (pre post : List Nat) (h : ∀ c ∈ pre, c ≠ sep) :
    partitionB sep (pre ++ sep :: post) = (pre, true, post) := by
  induction pre with
  | nil => simp [partitionB]
  | cons c cs ih =>
      have hc : c ≠ sep := h c (by simp)
      simp only [List.cons_append, partitionB, if_neg hc, List.append_eq,
        ih (fun x hx => h x (by simp [hx]))]

theorem hexDigitVal_hexDigit (d : Nat) (h : d < 16) : hexDigitVal (hexDigit d) = .ok d := by
  rcases Nat.lt_or_ge d 10 with h10 | h10
  · simp only [hexDigit, if_pos h10, hexDigitVal]
    rw [if_pos ⟨by omega, by omega⟩]
    congr 1
    omega
  · simp only [hexDigit, if_neg (by omega : ¬ d < 10), hexDigitVal]
    rw [if_neg (by omega), if_pos ⟨by omega, by omega⟩]
    congr 1
    omega

theorem hexDecode_hexEncode (bs : List Nat) (h : ∀ b ∈ bs, b < 256) :
    hexDecode (hexEncode bs) = .ok bs := by
  induction bs with
  | nil => rfl
  | cons b rest ih =>
      have hb : b < 256 := h b (by simp)
      rw [show hexEncode (b :: rest)
            = hexDigit (b / 16) :: hexDigit (b % 16) :: hexEncode rest by
          simp [hexEncode]]
      simp only [hexDecode, hexDigitVal_hexDigit (b / 16) (by omega),
        hexDigitVal_hexDigit (b % 16) (by omega),
        ih (fun x hx => h x (by simp [hx]))]
      rw [show 16 * (b / 16) + b % 16 = b by omega]

/-- Decoding a packed extension frame: `unpack` recovers the class name from
the hex prefix before the first underscore and dispatches on the merged
registry exactly as the source's `p` branch does. -/
theorem unpack_packable_frame (name packed : List Nat) (inject : Registry) (f : List Nat)
    (hname : ∀ b ∈ name, b < 256)
    (hp : pack (.pyPackable name packed) = .ok f) :
    unpackBytes f inject =
      match lookupReg (mergeReg globalsReg inject) name with
      | none => .error (.usageError
          (nameStr name ++ " not found in globals or inject; cannot unpack"))
      | some handler =>
          if handler.hasUnpack then handler.run packed
          else .error (.usageError (nameStr name ++ " must have unpack method")) := by
  have hp' : frame 112 (hexEncode name ++ 95 :: packed) = .ok f := by
    simpa [pack] using hp
  obtain ⟨hf, hlen⟩ := frame_eq_ok hp'
  subst hf
  show unpackF _ _ _ = _
  simp only [List.cons_append, List.length_cons]
  simp only [unpackF]
  rw [if_pos trivial]
  rw [if_pos (by simp [beBytes_length])]
  rw [List.take_left' (beBytes_length 4 _), List.drop_left' (beBytes_length 4 _),
      beDecode_beBytes _ hlen]
  rw [if_pos (le_refl _)]
  rw [List.take_length]
  rw [partitionB_append 95 (hexEncode name) packed (hexEncode_ne_95 name)]
  rw [hexDecode_hexEncode name hname]

/-- C7: decoding an extension (`p`) frame raises `UsageError` when the
hex-decoded class name is absent from the merged registry (module globals
updated by `inject`), raises `UsageError` when the found handler lacks an
`unpack` method, and, when the name is present with the capability and the
handler satisfies the extension contract, succeeds and reproduces the
original instance. -/
theorem unpack_extension_registry (name packed : List Nat) (inject : Registry) (f : List Nat)
    (hname : ∀ b ∈ name, b < 256)
    (hp : pack (.pyPackable name packed) = .ok f) :
    (lookupReg (mergeReg globalsReg inject) name = none →
      unpackBytes f inject = .error (.usageError
        (nameStr name ++ " not found in globals or inject; cannot unpack"))) ∧
    (∀ handler, lookupReg (mergeReg globalsReg inject) name = some handler →
      handler.hasUnpack = false →
      unpackBytes f inject = .error (.usageError
        (nameStr name ++ " must have unpack method"))) ∧
    (∀ handler, lookupReg (mergeReg globalsReg inject) name = some handler →
      handler.hasUnpack = true →
      handler.run packed = .ok (.pyPackable name packed) →
      unpackBytes f inject = .ok (.pyPackable name packed)) := by
  have key := unpack_packable_frame name packed inject f hname hp
  refine ⟨?_, ?_, ?_⟩
  · intro hnone
    rw [key, hnone]
  · intro handler hsome hcap
    rw [key, hsome]
    simp [hcap]
  · intro handler hsome hcap hrun
    rw [key, hsome]
    simp [hcap, hrun]

/-- Witness for `unpack_extension_registry`: a `Packable` of class `A` whose
payload is `bytes([1, 2])`, decoded with an empty registry, with a handler
lacking `unpack`, and with a faithful handler. -/
theorem unpack_extension_registry_witness :
    unpackBytes [112, 0, 0, 0, 5, 52, 49, 95, 1, 2] [] =
      .error (.usageError "A not found in globals or inject; cannot unpack") ∧
    unpackBytes [112, 0, 0, 0, 5, 52, 49, 95, 1, 2]
        [([65], ⟨false, fun _ => .ok .pyNone⟩)] =
      .error (.usageError "A must have unpack method") ∧
    unpackBytes [112, 0, 0, 0, 5, 52, 49, 95, 1, 2]
        [([65], ⟨true, fun bs => .ok (.pyPackable [65] bs)⟩)] =
      .ok (.pyPackable [65] [1, 2]) := by
  refine ⟨?_, ?_, ?_⟩
  · exact (unpack_extension_registry [65] [1, 2] [] _ (by decide) rfl).1 rfl
  · exact (unpack_extension_registry [65] [1, 2]
      [([65], ⟨false, fun _ => .ok .pyNone⟩)] _ (by decide) rfl).2.1 _ rfl rfl
  · exact (unpack_extension_registry [65] [1, 2]
      [([65], ⟨true, fun bs => .ok (.pyPackable [65] bs)⟩)] _ (by decide) rfl).2.2 _ rfl rfl rfl

/-! ## C9: duplicate keys in a mapping frame are deduplicated on decode -/

/-- The frame `pack` emits for an integer in `[0, 2^32)`: tag `i`, declared
length 4, 4-byte big-endian value. -/
def iFrame (n : Nat) : List Nat := 105 :: beBytes 4 4 ++ beBytes 4 n

/-- The frame `pack` emits for a two-integer tuple `(k, n)` (the shape of a
dict pair frame): tag `t` over the two concatenated integer frames. -/
def tFrame (k n : Nat) : List Nat :=
  116 :: beBytes 4 (iFrame k ++ iFrame n).length ++ (iFrame k ++ iFrame n)

theorem pack_int_eq (n : Nat) (h : n < 4294967296) :
    pack (.pyInt (n : Int)) = .ok (iFrame n) := by
  simp only [pack, iFrame]
  rw [if_pos ⟨Int.natCast_nonneg n, by exact_mod_cast h⟩, Int.toNat_natCast]

/-- Packing a two-element list of already-packed values. -/
theorem packAll_two (a b : PyObj) (fa fb : List Nat)
    (ha : pack a = .ok fa) (hb : pack b = .ok fb) :
    packAll [a, b] = .ok [fa, fb] := by
  simp [packAll, ha, hb]

/-- The frame `pack` emits for a two-element tuple of packable values. -/
theorem pack_tuple_two (a b : PyObj) (fa fb : List Nat)
    (ha : pack a = .ok fa) (hb : pack b = .ok fb)
    (hlen : fa.length + fb.length < 4294967296) :
    pack (.pyTuple [a, b]) = .ok (116 :: beBytes 4 (fa ++ fb).length ++ (fa ++ fb)) := by
  have hall := packAll_two a b fa fb ha hb
  simp only [pack, hall]
  rw [show ([fa, fb] : List (List Nat)).flatten = fa ++ fb by simp]
  rw [frame_ok (by simpa using hlen)]

theorem pack_tuple_pair_eq (k n : Nat) (hk : k < 4294967296) (hn : n < 4294967296) :
    pack (.pyTuple [.pyInt (k : Int), .pyInt (n : Int)]) = .ok (tFrame k n) :=
  pack_tuple_two (.pyInt (k : Int)) (.pyInt (n : Int)) (iFrame k) (iFrame n)
    (pack_int_eq k hk) (pack_int_eq n hn) (by simp [iFrame, beBytes_length])

/-- Decoding an integer frame with at least one unit of fuel. -/
theorem unpack_iframe (fuel g n : Nat) (deps : Registry)
    (hf : fuel = g + 1) (h : n < 4294967296) :
    unpackF fuel (iFrame n) deps = .ok (.pyInt (n : Int)) := by
  subst hf
  show unpackF (g + 1) (105 :: (beBytes 4 4 ++ beBytes 4 n)) deps = _
  simp only [unpackF]
  rw [if_neg (by decide), if_neg (by decide), if_neg (by decide), if_neg (by decide),
      if_pos (by decide)]
  rw [if_pos (by simp [beBytes_length])]
  rw [List.drop_left' (beBytes_length 4 4)]
  rw [List.take_of_length_le (by simp [beBytes_length])]
  rw [beDecode_beBytes n h]

/-- One step of the container item loop: a well-formed frame at the front of
the buffer is split off exactly, unpacked, and the loop continues on the
remainder. -/
theorem parseItems_cons (fuel g tag : Nat) (payload rest : List Nat) (deps : Registry)
    (hf : fuel = g + 1) (h : payload.length < 4294967296) :
    parseItemsF fuel ((tag :: beBytes 4 payload.length ++ payload) ++ rest) deps =
      match unpackF g (tag :: beBytes 4 payload.length ++ payload) deps with
      | .error e => .error e
      | .ok v =>
          match parseItemsF g rest deps with
          | .error e => .error e
          | .ok vs => .ok (v :: vs) := by
  subst hf
  rw [show (tag :: beBytes 4 payload.length ++ payload) ++ rest
        = tag :: (beBytes 4 payload.length ++ (payload ++ rest)) by simp]
  simp only [parseItemsF]
  rw [if_pos (by simp only [List.length_cons, List.length_append, beBytes_length]; omega)]
  rw [show (tag :: (beBytes 4 payload.length ++ (payload ++ rest))).drop 1
        = beBytes 4 payload.length ++ (payload ++ rest) from rfl]
  rw [List.take_left' (beBytes_length 4 payload.length)]
  rw [beDecode_beBytes payload.length h]
  rw [if_pos (by simp only [List.length_cons, List.length_append, beBytes_length]; omega)]
  rw [show 5 + payload.length = (4 + payload.length) + 1 by omega]
  rw [List.take_succ_cons, List.drop_succ_cons]
  rw [show 4 + payload.length
        = (beBytes 4 payload.length).length + payload.length by simp [beBytes_length]]
  rw [List.take_append payload.length, List.drop_append payload.length]
  rw [List.take_left, List.drop_left]
  rfl

/-- The item loop returns the empty list on an exhausted buffer (with fuel
remaining). -/
theorem parseItems_nil (fuel g : Nat) (deps : Registry) (hf : fuel = g + 1) :
    parseItemsF fuel [] deps = .ok [] := by
  subst hf
  rfl

/-- Decoding a dict pair frame (a two-integer tuple frame) with four units
of fuel. -/
theorem unpack_tframe_pair (fuel g k n : Nat) (deps : Registry)
    (hf : fuel = g + 4) (hk : k < 4294967296) (hn : n < 4294967296) :
    unpackF fuel (tFrame k n) deps = .ok (.pyTuple [.pyInt (k : Int), .pyInt (n : Int)]) := by
  subst hf
  show unpackF ((g + 3) + 1)
      (116 :: (beBytes 4 (iFrame k ++ iFrame n).length ++ (iFrame k ++ iFrame n))) deps = _
  simp only [unpackF]
  rw [if_neg (by decide), if_pos (by decide)]
  rw [if_pos (by simp [beBytes_length])]
  rw [List.take_left' (beBytes_length 4 _), List.drop_left' (beBytes_length 4 _)]
  rw [beDecode_beBytes _ (by simp [iFrame, beBytes_length])]
  rw [if_pos (le_refl _), List.take_length]
  rw [show iFrame k ++ iFrame n
        = (105 :: beBytes 4 (beBytes 4 k).length ++ beBytes 4 k) ++ iFrame n by
      simp [iFrame, beBytes_length]]
  rw [parseItems_cons (g + 3) (g + 2) 105 (beBytes 4 k) (iFrame n) deps (by omega)
      (by simp [beBytes_length])]
  rw [show (105 :: beBytes 4 (beBytes 4 k).length ++ beBytes 4 k) = iFrame k by
      simp [iFrame, beBytes_length]]
  rw [unpack_iframe (g + 2) (g + 1) k deps (by omega) hk]
  rw [show iFrame n
        = (105 :: beBytes 4 (beBytes 4 n).length ++ beBytes 4 n) ++ [] by
      simp [iFrame, beBytes_length]]
  rw [parseItems_cons (g + 2) (g + 1) 105 (beBytes 4 n) [] deps (by omega)
      (by simp [beBytes_length])]
  rw [show (105 :: beBytes 4 (beBytes 4 n).length ++ beBytes 4 n) = iFrame n by
      simp [iFrame, beBytes_length]]
  rw [unpack_iframe (g + 1) g n deps (by omega) hn]
  rw [parseItems_nil (g + 1) g deps (by omega)]
  simp

/-- C9 (counterexample): a mapping frame whose payload holds two pair frames
with equal keys — `(None, 0)` and `(None, 1)` — decodes to a dict containing
a single pair carrying the later value; the earlier pair is silently
replaced rather than surfaced. -/
theorem unpack_dict_duplicate_keys_cex :
    unpackBytes
      [100, 0, 0, 0, 38,
       116, 0, 0, 0, 14, 110, 0, 0, 0, 0, 105, 0, 0, 0, 4, 0, 0, 0, 0,
       116, 0, 0, 0, 14, 110, 0, 0, 0, 0, 105, 0, 0, 0, 4, 0, 0, 0, 1] [] =
      .ok (.pyDict [(.pyNone, .pyInt 1)]) :=
  rfl

set_option maxHeartbeats 1000000 in
/-- C9 (amended): the decoder parses every pair frame of a `d` payload, but
rebuilds a Python dict from them: for duplicated keys the later pair's value
silently replaces the earlier one, so only one pair per key reaches the
caller.  The two tuple frames below are genuine `pack` outputs for the
pairs `(k, n)` and `(k, m)` sharing the key `k`. -/
theorem unpack_dict_duplicate_keys_last_wins (k n m : Nat) (inject : Registry)
    (hk : k < 4294967296) (hn : n < 4294967296) (hm : m < 4294967296) :
    pack (.pyTuple [.pyInt (k : Int), .pyInt (n : Int)]) = .ok (tFrame k n) ∧
    pack (.pyTuple [.pyInt (k : Int), .pyInt (m : Int)]) = .ok (tFrame k m) ∧
    unpackBytes
        (100 :: beBytes 4 (tFrame k n ++ tFrame k m).length ++ (tFrame k n ++ tFrame k m))
        inject =
      .ok (.pyDict [(.pyInt (k : Int), .pyInt (m : Int))]) := by
  refine ⟨pack_tuple_pair_eq k n hk hn, pack_tuple_pair_eq k m hk hm, ?_⟩
  have hP : (tFrame k n ++ tFrame k m).length = 46 := by
    simp [tFrame, iFrame, beBytes_length]
  show unpackF _ _ _ = _
  rw [show (100 :: beBytes 4 (tFrame k n ++ tFrame k m).length
        ++ (tFrame k n ++ tFrame k m)).length + 1 = 51 + 1 by
      simp [beBytes_length, hP]]
  rw [List.cons_append]
  simp only [unpackF]
  rw [if_neg (by decide), if_pos (by decide)]
  rw [if_pos (by simp [beBytes_length])]
  rw [List.take_left' (beBytes_length 4 _), List.drop_left' (beBytes_length 4 _)]
  rw [beDecode_beBytes _ (by rw [hP]; decide)]
  rw [if_pos (le_refl _), List.take_length]
  rw [show tFrame k n ++ tFrame k m
        = (116 :: beBytes 4 (iFrame k ++ iFrame n).length ++ (iFrame k ++ iFrame n))
          ++ tFrame k m by simp [tFrame]]
  rw [parseItems_cons 51 50 116 (iFrame k ++ iFrame n) (tFrame k m)
      (mergeReg globalsReg inject) (by norm_num) (by simp [iFrame, beBytes_length])]
  rw [show (116 :: beBytes 4 (iFrame k ++ iFrame n).length ++ (iFrame k ++ iFrame n))
        = tFrame k n from rfl]
  rw [unpack_tframe_pair 50 46 k n (mergeReg globalsReg inject) (by norm_num) hk hn]
  rw [show tFrame k m
        = (116 :: beBytes 4 (iFrame k ++ iFrame m).length ++ (iFrame k ++ iFrame m)) ++ []
      by simp [tFrame]]
  rw [parseItems_cons 50 49 116 (iFrame k ++ iFrame m) []
      (mergeReg globalsReg inject) (by norm_num) (by simp [iFrame, beBytes_length])]
  rw [show (116 :: beBytes 4 (iFrame k ++ iFrame m).length ++ (iFrame k ++ iFrame m))
        = tFrame k m from rfl]
  rw [unpack_tframe_pair 49 45 k m (mergeReg globalsReg inject) (by norm_num) hk hm]
  rw [parseItems_nil 49 48 (mergeReg globalsReg inject) (by norm_num)]
  simp [toDict, toDictAux, pyIndex, dictInsert, pyBeq]

/-- Witness for `unpack_dict_duplicate_keys_last_wins` at the pairs `(1, 2)`
and `(1, 3)`. -/
theorem unpack_dict_duplicate_keys_last_wins_witness :
    pack (.pyTuple [.pyInt ((1 : Nat) : Int), .pyInt ((2 : Nat) : Int)]) = .ok (tFrame 1 2) ∧
    pack (.pyTuple [.pyInt ((1 : Nat) : Int), .pyInt ((3 : Nat) : Int)]) = .ok (tFrame 1 3) ∧
    unpackBytes
        (100 :: beBytes 4 (tFrame 1 2 ++ tFrame 1 3).length ++ (tFrame 1 2 ++ tFrame 1 3)) [] =
      .ok (.pyDict [(.pyInt ((1 : Nat) : Int), .pyInt ((3 : Nat) : Int))]) :=
  unpack_dict_duplicate_keys_last_wins 1 2 3 [] (by norm_num) (by norm_num) (by norm_num)
